import Mathlib

/-!
Verification of the session state machine and generation-mode dispatcher of
the `wasmedge-ggml-llama-interactive` example (`src/main.rs`).

The Rust program is shallowly embedded:
* backend byte output is a `List Nat` (each element a byte value < 256);
* backend calls that can fail are `Except String _` values supplied as inputs;
* a Rust `unwrap` panic is modelled by an `Option.none` result (the process
  aborts instead of producing a state).
-/

/-- `MAX_OUTPUT_BUFFER_SIZE` from `get_data_from_context`
(`const MAX_OUTPUT_BUFFER_SIZE: usize = 4096 * 6`). -/
def MAX_OUTPUT_BUFFER_SIZE : Nat := 4096 * 6

/-- A UTF-8 continuation byte: `0x80 ≤ b ≤ 0xBF`. -/
def isCont (b : Nat) : Bool := 128 ≤ b && b ≤ 191

/-- Valid second byte of a three-byte UTF-8 sequence with lead byte `b`
(excludes overlong encodings for lead `0xE0` and surrogates for lead `0xED`),
as in Rust's UTF-8 validation used by `String::from_utf8_lossy`. -/
def utf8Second3 (b c : Nat) : Bool :=
  (b == 224 && 160 ≤ c && c ≤ 191) ||
  (b == 237 && 128 ≤ c && c ≤ 159) ||
  (b != 224 && b != 237 && isCont c)

/-- Valid second byte of a four-byte UTF-8 sequence with lead byte `b`
(excludes overlong encodings for lead `0xF0` and out-of-range scalars for
lead `0xF4`). -/
def utf8Second4 (b c : Nat) : Bool :=
  (b == 240 && 144 ≤ c && c ≤ 191) ||
  (b == 244 && 128 ≤ c && c ≤ 143) ||
  (b != 240 && b != 244 && isCont c)

/-- Decode one Unicode scalar (or one maximal invalid subpart, yielding the
replacement character `U+FFFD` = 65533) from a lead byte `b` followed by the
bytes `rest`, as Rust's `String::from_utf8_lossy` does: an invalid or
truncated sequence consumes exactly its maximal valid-prefix bytes and
decoding resumes at the first byte after them. Returns the code point and
the remaining bytes. -/
def utf8DecodeOne (b : Nat) (rest : List Nat) : Nat × List Nat :=
  if b < 128 then (b, rest)
  else if 194 ≤ b && b ≤ 223 then
    match rest with
    | [] => (65533, [])
    | c :: rest2 =>
      if isCont c then ((b - 192) * 64 + (c - 128), rest2)
      else (65533, c :: rest2)
  else if 224 ≤ b && b ≤ 239 then
    match rest with
    | [] => (65533, [])
    | c :: rest2 =>
      if utf8Second3 b c then
        match rest2 with
        | [] => (65533, [])
        | d :: rest3 =>
          if isCont d then ((b - 224) * 4096 + (c - 128) * 64 + (d - 128), rest3)
          else (65533, d :: rest3)
      else (65533, c :: rest2)
  else if 240 ≤ b && b ≤ 244 then
    match rest with
    | [] => (65533, [])
    | c :: rest2 =>
      if utf8Second4 b c then
        match rest2 with
        | [] => (65533, [])
        | d :: rest3 =>
          if isCont d then
            match rest3 with
            | [] => (65533, [])
            | e :: rest4 =>
              if isCont e then
                ((b - 240) * 262144 + (c - 128) * 4096 + (d - 128) * 64 + (e - 128), rest4)
              else (65533, e :: rest4)
          else (65533, d :: rest3)
      else (65533, c :: rest2)
  else (65533, rest)

/-- Fuel-indexed driver of the lossy decoding loop: each iteration decodes
one scalar or one maximal invalid subpart, consuming at least one byte, so a
fuel equal to the byte count always suffices. -/
def utf8LossyGo : Nat → List Nat → List Nat
  | _, [] => []
  | 0, _ :: _ => []
  | Nat.succ fuel, b :: rest =>
    (utf8DecodeOne b rest).1 :: utf8LossyGo fuel (utf8DecodeOne b rest).2

/-- Code points produced by Rust's `String::from_utf8_lossy` on a byte list:
repeatedly decode one scalar or one maximal invalid subpart. -/
def utf8LossyCps (bytes : List Nat) : List Nat := utf8LossyGo bytes.length bytes

/-- Code points produced by strict UTF-8 decoding (Rust's
`String::from_utf8`, which FAILS on invalid or incomplete sequences instead
of substituting replacement characters). Used only to contrast with the
lossy decoding the program actually performs. -/
def utf8StrictCps : List Nat → Option (List Nat)
  | [] => some []
  | b :: rest =>
    if b < 128 then (utf8StrictCps rest).map (b :: ·)
    else if 194 ≤ b && b ≤ 223 then
      match rest with
      | [] => none
      | c :: rest2 =>
        if isCont c then (utf8StrictCps rest2).map (((b - 192) * 64 + (c - 128)) :: ·)
        else none
    else if 224 ≤ b && b ≤ 239 then
      match rest with
      | [] => none
      | c :: rest2 =>
        if utf8Second3 b c then
          match rest2 with
          | [] => none
          | d :: rest3 =>
            if isCont d then
              (utf8StrictCps rest3).map
                (((b - 224) * 4096 + (c - 128) * 64 + (d - 128)) :: ·)
            else none
        else none
    else if 240 ≤ b && b ≤ 244 then
      match rest with
      | [] => none
      | c :: rest2 =>
        if utf8Second4 b c then
          match rest2 with
          | [] => none
          | d :: rest3 =>
            if isCont d then
              match rest3 with
              | [] => none
              | e :: rest4 =>
                if isCont e then
                  (utf8StrictCps rest4).map
                    (((b - 240) * 262144 + (c - 128) * 4096 + (d - 128) * 64 + (e - 128)) :: ·)
                else none
            else none
        else none
    else none

/-- Build a `String` from a list of Unicode code points. -/
def cpsToString (cps : List Nat) : String := String.mk (cps.map Char.ofNat)

/-- `get_data_from_context` (src/main.rs lines 83-101): the backend's output
bytes are copied into a zero-initialised buffer of `MAX_OUTPUT_BUFFER_SIZE`
bytes, the reported size is clamped to the buffer size
(`output_size = min(MAX_OUTPUT_BUFFER_SIZE, output_size)`), and the
resulting byte prefix is decoded with `String::from_utf8_lossy`. The
argument is the byte output the backend reports for the requested output
slot; the `unwrap` on the backend read is not modelled here (the claims
about this function concern decoding of successfully retrieved bytes). -/
def get_data_from_context (bytes : List Nat) : String :=
  cpsToString (utf8LossyCps (bytes.take MAX_OUTPUT_BUFFER_SIZE))

/-- `get_output_from_context` (src/main.rs lines 103-105): read output slot 0. -/
def get_output_from_context (bytes : List Nat) : String :=
  get_data_from_context bytes

/-- The fixed system prompt of the interactive session (src/main.rs line 153). -/
def system_prompt : String :=
  "<<SYS>>You are a helpful, respectful and honest assistant. Always answer as short as possible, while being safe. <</SYS>>"

/-- The transcript-building step of src/main.rs lines 159-163: if the saved
prompt is empty, `format!("[INST] {} {} [/INST]", system_prompt, input.trim())`;
otherwise `format!("{} [INST] {} [/INST]", saved_prompt, input.trim())`. -/
def append_turn (transcript sysPrompt userText : String) : String :=
  if transcript = "" then
    "[INST] " ++ sysPrompt ++ " " ++ userText.trim ++ " [/INST]"
  else
    transcript ++ " [INST] " ++ userText.trim ++ " [/INST]"

/-- The output-appending step of src/main.rs line 219:
`format!("{} {} ", saved_prompt, output.trim())`. -/
def append_output (transcript modelText : String) : String :=
  transcript ++ " " ++ modelText.trim ++ " "

/-- `read_input`'s retry condition (src/main.rs line 12): the loop keeps
reading while the line is empty, `"\n"`, or `"\r\n"`. -/
def retryLine (l : String) : Bool := l == "" || l == "\n" || l == "\r\n"

/-- `read_input` (src/main.rs lines 6-16) over the list of lines successively
returned by `read_line`: returns the first line for which the retry
condition fails; `none` models the loop never returning (input exhausted). -/
def read_input : List String → Option String
  | [] => none
  | l :: rest => if retryLine l then read_input rest else some l

/-- Outcome of one `compute_single` call together with the token text read by
`get_output_single` on success (src/main.rs lines 180-202): `tok s` models
`Ok(_)` followed by reading the token text `s`; the other constructors model
the matched `BackendError` variants and an arbitrary other error. -/
inductive StepRes where
  | tok (s : String)
  | eos
  | contextFull
  | promptTooLong
  | err (msg : String)
deriving DecidableEq

/-- `truncated_reason` of the spec's `GenerationResult`. -/
inductive TruncReason where
  | none
  | endOfSequence
  | contextFull
  | promptTooLong
  | otherError (msg : String)
deriving DecidableEq

/-- The spec's `GenerationResult`, extended with the observable output of the
dispatcher: `emitted` is the sequence of token texts streamed to stdout by
the incremental loop (in emission order), and `printed` is the sequence of
whole lines the dispatcher prints (backend-condition messages, and the full
trimmed text in non-streaming batch mode). -/
structure GenerationResult where
  text : String
  truncated_reason : TruncReason
  emitted : List String
  printed : List String
deriving DecidableEq

/-- The incremental generation loop of src/main.rs lines 179-203, driven by
the trace of `compute_single` outcomes: `tok s` appends `s` to the
accumulator and emits it; `eos` breaks; `contextFull` / `promptTooLong` /
`err` print their message and break. An exhausted trace (the backend would
block forever) is reported with reason `TruncReason.none`. -/
def computeSingleLoop : List StepRes → String → List String → List String → GenerationResult
  | [], acc, em, pr => ⟨acc, TruncReason.none, em, pr⟩
  | StepRes.tok s :: rest, acc, em, pr => computeSingleLoop rest (acc ++ s) (em ++ [s]) pr
  | StepRes.eos :: _, acc, em, pr => ⟨acc, TruncReason.endOfSequence, em, pr⟩
  | StepRes.contextFull :: _, acc, em, pr =>
    ⟨acc, TruncReason.contextFull, em, pr ++ ["[INFO] Context full"]⟩
  | StepRes.promptTooLong :: _, acc, em, pr =>
    ⟨acc, TruncReason.promptTooLong, em, pr ++ ["[INFO] Prompt too long"]⟩
  | StepRes.err m :: _, acc, em, pr =>
    ⟨acc, TruncReason.otherError m, em, pr ++ ["[ERROR] " ++ m]⟩

/-- The incremental branch of the dispatcher, starting from an empty
accumulator (`let mut output = String::new()`). -/
def computeSingleDispatch (steps : List StepRes) : GenerationResult :=
  computeSingleLoop steps "" [] []

/-- The batch branch of the dispatcher (src/main.rs lines 205-217):
`context.compute().unwrap()` (a failure panics, modelled as `none`), then
read the output, then `options["stream-stdout"].as_bool().unwrap()` (absent
or non-boolean panics, modelled as `none`); when `stream-stdout` is `false`
the trimmed output is printed once. -/
def batchDispatch (streamStdout : Option Bool) (computeRes : Except String Unit)
    (outputBytes : List Nat) : Option GenerationResult :=
  match computeRes with
  | Except.error _ => none
  | Except.ok _ =>
    let output := get_output_from_context outputBytes
    match streamStdout with
    | none => none
    | some b => some ⟨output, TruncReason.none, [], if b then [] else [output.trim]⟩

/-- The generation-mode dispatcher (src/main.rs lines 176-217): incremental
when `compute_single` is selected, batch otherwise. `none` models a panic
aborting the process. -/
def dispatchTurn (isComputeSingle : Bool) (streamStdout : Option Bool)
    (computeRes : Except String Unit) (outputBytes : List Nat)
    (steps : List StepRes) : Option GenerationResult :=
  if isComputeSingle then some (computeSingleDispatch steps)
  else batchDispatch streamStdout computeRes outputBytes

/-- The spec's `RunMetadata` (token counts read from output slot 1). -/
structure RunMetadata where
  input_tokens : Nat
  output_tokens : Nat
deriving DecidableEq

/-- `get_metadata_from_context` (src/main.rs lines 107-109): the argument
models the combined result of reading output slot 1 and JSON-parsing it; the
`unwrap` turns any failure into a panic, modelled as `none`. -/
def get_metadata_from_context (r : Except String RunMetadata) : Option RunMetadata :=
  r.toOption

/-- The backend behaviour one interactive turn observes: results of
`set_input`, the two metadata reads, `compute` and the output bytes (batch
mode), the `compute_single` trace (incremental mode), and `fini_single`. -/
structure TurnBackend where
  setInputRes : Except String Unit
  inputMeta : Except String RunMetadata
  computeRes : Except String Unit
  outputBytes : List Nat
  steps : List StepRes
  outputMeta : Except String RunMetadata
  finiRes : Except String Unit

/-- One iteration of the interactive session loop (src/main.rs lines
156-232) on saved prompt `saved` with user input line `input`: append the
turn to the transcript, submit it (`unwrap`), read input metadata
(`unwrap`), dispatch generation, append the trimmed output (line 219), read
output metadata (`unwrap`), and in incremental mode `fini_single().unwrap()`.
`none` models a panic; otherwise the new saved prompt and the turn's
`GenerationResult` are returned and the loop proceeds to the next turn. -/
def interactiveTurn (isComputeSingle : Bool) (streamStdout : Option Bool)
    (saved input : String) (b : TurnBackend) : Option (String × GenerationResult) :=
  let p := append_turn saved system_prompt input
  match b.setInputRes with
  | Except.error _ => none
  | Except.ok _ =>
    match get_metadata_from_context b.inputMeta with
    | none => none
    | some _ =>
      match dispatchTurn isComputeSingle streamStdout b.computeRes b.outputBytes b.steps with
      | none => none
      | some r =>
        let saved2 := append_output p r.text
        match get_metadata_from_context b.outputMeta with
        | none => none
        | some _ =>
          if isComputeSingle then
            match b.finiRes with
            | Except.error _ => none
            | Except.ok _ => some (saved2, r)
          else some (saved2, r)

/-- Observable outcome of the scripted (one-shot) branch: the lines printed,
the number of backend `compute` runs performed, and the exit code (`none`
models a panic, i.e. an abnormal abort). -/
structure ScriptedRun where
  printed : List String
  runs : Nat
  exitCode : Option Nat
deriving DecidableEq

/-- The scripted branch of `main` (src/main.rs lines 139-151), taken when
`argv[2]` is present: print the prompt, submit it (`unwrap`), print
`"Response:"`, run `compute` exactly once (`unwrap`), read the output, print
its trimmed text, and exit with status 0. The `isComputeSingle` flag is in
scope at this point of `main` but the branch never consults it. -/
def scriptedMode (isComputeSingle : Bool) (prompt : String)
    (setInputRes computeRes : Except String Unit) (outputBytes : List Nat) : ScriptedRun :=
  match setInputRes with
  | Except.error _ => ⟨["Prompt:\n" ++ prompt], 0, none⟩
  | Except.ok _ =>
    match computeRes with
    | Except.error _ => ⟨["Prompt:\n" ++ prompt, "Response:"], 1, none⟩
    | Except.ok _ =>
      ⟨["Prompt:\n" ++ prompt, "Response:",
        (get_output_from_context outputBytes).trim], 1, some 0⟩

/-- Transcript evolution of one session turn, abstracted over the turn's
user input and produced output text (first component of the state), together
with a count of how many times the empty-transcript branch of
src/main.rs line 159 was taken (second component). -/
def sessionStateStep (st : String × Nat) (turn : String × String) : String × Nat :=
  (append_output (append_turn st.1 system_prompt turn.1) turn.2,
   st.2 + (if st.1 = "" then 1 else 0))

/-- Transcript and empty-branch count after a list of completed turns,
starting from the initial empty saved prompt (src/main.rs line 154). -/
def sessionFold (turns : List (String × String)) : String × Nat :=
  turns.foldl sessionStateStep ("", 0)

/-- A Unicode scalar value: a code point below the surrogate range or above
it and below 0x110000. Every `Char` a decoded string may contain must carry
such a value. -/
def isUnicodeScalar (cp : Nat) : Prop := cp < 55296 ∨ (57344 ≤ cp ∧ cp < 1114112)

/-- The spec's `"[INST] {body} [/INST]"` template. -/
def wrapInst (body : String) : String := "[INST] " ++ body ++ " [/INST]"

/-- Modelled from the spec wording of `append_turn` for comparison with the
source-derived `append_turn`: if `transcript` is empty the result is
`"[INST] {system_prompt} {trim(user_text)} [/INST]"`, otherwise
`"{transcript} [INST] {trim(user_text)} [/INST]"`. -/
def append_turn_spec (transcript sysPrompt userText : String) : String :=
  if transcript = "" then wrapInst (sysPrompt ++ " " ++ userText.trim)
  else transcript ++ " " ++ wrapInst userText.trim

/-- Appending a turn only extends the transcript on the right. -/
lemma append_turn_extends (t s u : String) : ∃ e, append_turn t s u = t ++ e := by
  unfold append_turn
  split
  · exact ⟨"[INST] " ++ s ++ " " ++ u.trim ++ " [/INST]", by simp_all [String.empty_append]⟩
  · exact ⟨" [INST] " ++ u.trim ++ " [/INST]", by simp [String.append_assoc]⟩

/-- Appending a model output only extends the transcript on the right. -/
lemma append_output_extends (t o : String) : ∃ e, append_output t o = t ++ e :=
  ⟨" " ++ o.trim ++ " ", by simp [append_output, String.append_assoc]⟩

/-- A completed interactive turn rewrites the saved prompt to the old prompt
with the user turn appended and then the produced output appended. -/
lemma turn_some_eq (isCS : Bool) (sso : Option Bool) (saved input : String)
    (b : TurnBackend) (saved2 : String) (r : GenerationResult)
    (h : interactiveTurn isCS sso saved input b = some (saved2, r)) :
    saved2 = append_output (append_turn saved system_prompt input) r.text := by
  unfold interactiveTurn at h
  repeat' split at h
  all_goals simp_all
  all_goals (obtain ⟨h1, rfl⟩ := h; exact h1.symm)

/-- The incremental loop consumes a prefix of successful token steps by
accumulating and emitting each token in order. -/
lemma computeSingleLoop_tok (toks : List String) (rest : List StepRes)
    (acc : String) (em pr : List String) :
    computeSingleLoop (toks.map StepRes.tok ++ rest) acc em pr =
      computeSingleLoop rest (toks.foldl (· ++ ·) acc) (em ++ toks) pr := by
  induction toks generalizing acc em with
  | nil => simp
  | cons t ts ih =>
    simp only [List.map_cons, List.cons_append, computeSingleLoop, List.foldl_cons,
      List.append_eq]
    rw [ih]
    simp

/-- The transcript resulting from a completed turn is never the empty string. -/
lemma append_output_ne_empty (t o : String) : append_output t o ≠ "" := by
  intro h
  have hl := congrArg String.length h
  simp only [append_output, String.length_append] at hl
  have h1 : (" " : String).length = 1 := rfl
  have h2 : ("" : String).length = 0 := rfl
  simp only [h1, h2] at hl
  omega

/-- Once the transcript is non-empty it stays non-empty, and no further
session turn takes the empty-transcript branch. -/
lemma sessionFold_go (turns : List (String × String)) (st : String × Nat) (h : st.1 ≠ "") :
    (turns.foldl sessionStateStep st).1 ≠ "" ∧ (turns.foldl sessionStateStep st).2 = st.2 := by
  induction turns generalizing st with
  | nil => exact ⟨h, rfl⟩
  | cons t ts ih =>
    simp only [List.foldl_cons]
    have h1 : (sessionStateStep st t).1 ≠ "" := append_output_ne_empty _ _
    have h2 : (sessionStateStep st t).2 = st.2 := by simp [sessionStateStep, h]
    obtain ⟨a, b2⟩ := ih (sessionStateStep st t) h1
    exact ⟨a, by rw [b2, h2]⟩

/-- One lossy decoding step always yields a Unicode scalar value. -/
lemma utf8DecodeOne_valid (b : Nat) (rest : List Nat) :
    isUnicodeScalar (utf8DecodeOne b rest).1 := by
  unfold utf8DecodeOne isUnicodeScalar
  repeat' split
  all_goals simp_all [isCont, utf8Second3, utf8Second4]
  all_goals omega

/-- Every code point the lossy decoding loop produces is a Unicode scalar. -/
lemma utf8LossyGo_valid :
    ∀ (fuel : Nat) (bytes : List Nat), ∀ cp ∈ utf8LossyGo fuel bytes, isUnicodeScalar cp := by
  intro fuel
  induction fuel with
  | zero =>
    intro bytes cp hcp
    cases bytes <;> simp [utf8LossyGo] at hcp
  | succ n ih =>
    intro bytes cp hcp
    cases bytes with
    | nil => simp [utf8LossyGo] at hcp
    | cons b rest =>
      simp only [utf8LossyGo, List.mem_cons] at hcp
      rcases hcp with rfl | hcp
      · exact utf8DecodeOne_valid b rest
      · exact ih _ cp hcp

/-- C1: for every transcript `t`, system prompt `s` and user input `u`, the
turn-append operation of src/main.rs lines 159-163 produces exactly the
spec's template — `"[INST] {s} {trim(u)} [/INST]"` on an empty transcript
and `"{t} [INST] {trim(u)} [/INST]"` otherwise — and, being a pure function
of these three strings, depends on nothing else. -/
theorem claim_C1 (t s u : String) : append_turn t s u = append_turn_spec t s u := by
  unfold append_turn append_turn_spec wrapInst
  split
  · simp [String.append_assoc]
  · simp only [String.append_assoc]
    rfl

/-- C2: whenever an interactive turn completes (in either mode, including
incremental turns whose generation ended in a backend error, where the
output may be empty), the transcript after the turn equals the transcript
before the turn with the user turn appended and then the turn's trimmed
output appended; consequently the old transcript is a prefix of the new one
and the transcript length is monotonically non-decreasing, so turns are
appended in chronological order and never dropped or reordered. -/
theorem claim_C2 (isCS : Bool) (sso : Option Bool) (saved input : String)
    (b : TurnBackend) (saved2 : String) (r : GenerationResult)
    (h : interactiveTurn isCS sso saved input b = some (saved2, r)) :
    saved2 = append_output (append_turn saved system_prompt input) r.text ∧
    (∃ e, saved2 = saved ++ e) ∧ saved.length ≤ saved2.length := by
  have h1 := turn_some_eq isCS sso saved input b saved2 r h
  obtain ⟨e1, he1⟩ := append_turn_extends saved system_prompt input
  obtain ⟨e2, he2⟩ := append_output_extends (append_turn saved system_prompt input) r.text
  have h2 : saved2 = saved ++ (e1 ++ e2) := by
    rw [h1, he2, he1, String.append_assoc]
  refine ⟨h1, ⟨e1 ++ e2, h2⟩, ?_⟩
  rw [h2, String.length_append]
  exact Nat.le_add_right _ _

/-- Witness for C2: a concrete incremental turn that ends in a backend
`ContextFull` error still completes, appending the user input and the empty
trimmed output. -/
theorem claim_C2_witness :
    append_output (append_turn "" system_prompt "Hi\n") "" =
      append_output (append_turn "" system_prompt "Hi\n")
        (GenerationResult.mk "" TruncReason.contextFull [] ["[INFO] Context full"]).text ∧
    (∃ e, append_output (append_turn "" system_prompt "Hi\n") "" = "" ++ e) ∧
    ("" : String).length ≤ (append_output (append_turn "" system_prompt "Hi\n") "").length :=
  claim_C2 true none "" "Hi\n"
    ⟨Except.ok (), Except.ok ⟨1, 0⟩, Except.ok (), [], [StepRes.contextFull],
      Except.ok ⟨1, 0⟩, Except.ok ()⟩
    (append_output (append_turn "" system_prompt "Hi\n") "")
    ⟨"", TruncReason.contextFull, [], ["[INFO] Context full"]⟩ rfl

/-- C3 counterexample: the claim says no backend failure in either mode, nor
a metadata-read failure, propagates past the dispatcher. In batch mode a
failing `compute` is `unwrap`ped (src/main.rs line 207), so the turn aborts
the process (`none`) instead of producing a truncation reason and reading
the next user turn; a failing metadata read (line 108) likewise panics. -/
theorem claim_C3_counterexample :
    interactiveTurn false (some true) "" "hi\n"
      ⟨Except.ok (), Except.ok ⟨1, 0⟩, Except.error "backend error", [], [],
        Except.ok ⟨1, 0⟩, Except.ok ()⟩ = none ∧
    get_metadata_from_context (Except.error "metadata read failed") = none :=
  ⟨rfl, rfl⟩

/-- C3 amended: only incremental-mode single-step failures are contained:
any `compute_single` error terminates the loop with the matching truncation
reason and exactly the matching printed message, the accumulated tokens are
kept, and the session turn then completes normally (provided submission,
the metadata reads and `fini_single` succeed), so the session loop reads the
next user turn. Batch-mode `compute` failures and metadata-read failures
are not contained (see the counterexample). -/
theorem claim_C3_amended :
    (∀ (toks : List String) (rest : List StepRes),
      computeSingleDispatch (toks.map StepRes.tok ++ StepRes.contextFull :: rest) =
        ⟨toks.foldl (· ++ ·) "", TruncReason.contextFull, toks, ["[INFO] Context full"]⟩ ∧
      computeSingleDispatch (toks.map StepRes.tok ++ StepRes.promptTooLong :: rest) =
        ⟨toks.foldl (· ++ ·) "", TruncReason.promptTooLong, toks, ["[INFO] Prompt too long"]⟩ ∧
      (∀ m, computeSingleDispatch (toks.map StepRes.tok ++ StepRes.err m :: rest) =
        ⟨toks.foldl (· ++ ·) "", TruncReason.otherError m, toks, ["[ERROR] " ++ m]⟩)) ∧
    (∀ (sso : Option Bool) (saved input : String) (cr : Except String Unit)
        (ob : List Nat) (steps : List StepRes) (m1 m2 : RunMetadata),
      interactiveTurn true sso saved input
        ⟨Except.ok (), Except.ok m1, cr, ob, steps, Except.ok m2, Except.ok ()⟩ =
        some (append_output (append_turn saved system_prompt input)
                (computeSingleDispatch steps).text,
              computeSingleDispatch steps)) := by
  constructor
  · intro toks rest
    refine ⟨?_, ?_, fun m => ?_⟩ <;>
      (unfold computeSingleDispatch; rw [computeSingleLoop_tok]; simp [computeSingleLoop])
  · intro sso saved input cr ob steps m1 m2
    rfl

/-- C4: in incremental mode, a backend yielding token texts `"Hel"` then
`"lo"` and then `EndOfSequence` makes the dispatcher return accumulated text
`"Hello"` with truncation reason `EndOfSequence`, having emitted `"Hel"`
then `"lo"` to the output stream in that order during the loop. -/
theorem claim_C4 :
    computeSingleDispatch [StepRes.tok "Hel", StepRes.tok "lo", StepRes.eos] =
      ⟨"Hello", TruncReason.endOfSequence, ["Hel", "lo"], []⟩ := by decide

/-- C5: in incremental mode, a backend whose first single-step call reports
`ContextFull` yields the empty accumulated text with truncation reason
`ContextFull`, the message `"[INFO] Context full"` is printed exactly once,
and the turn nevertheless completes (the empty accumulator is a valid
result): the session turn returns the updated transcript instead of
aborting. -/
theorem claim_C5 :
    computeSingleDispatch [StepRes.contextFull] =
      ⟨"", TruncReason.contextFull, [], ["[INFO] Context full"]⟩ ∧
    (computeSingleDispatch [StepRes.contextFull]).printed.count "[INFO] Context full" = 1 ∧
    interactiveTurn true none "" "hi\n"
      ⟨Except.ok (), Except.ok ⟨1, 0⟩, Except.ok (), [], [StepRes.contextFull],
        Except.ok ⟨1, 0⟩, Except.ok ()⟩ =
      some (append_output (append_turn "" system_prompt "hi\n") "",
            ⟨"", TruncReason.contextFull, [], ["[INFO] Context full"]⟩) :=
  ⟨by decide, by decide, rfl⟩

/-- C6 counterexample: the claim says `read_input` retries on whitespace-only
lines, so every returned value contains a non-whitespace character. The code
(src/main.rs line 12) only retries on `""`, `"\n"` and `"\r\n"`: the
whitespace-only line `" \n"` is returned as-is, and it consists entirely of
whitespace characters. -/
theorem claim_C6_counterexample :
    read_input [" \n"] = some " \n" ∧
    (" \n").data.all (fun c => c.isWhitespace) = true :=
  ⟨by decide, by decide⟩

/-- C6 amended: `read_input` returns the first arriving line that is neither
empty nor exactly `"\n"` nor exactly `"\r\n"` (retrying on exactly those
three), so the returned line is non-empty but may consist solely of
whitespace. -/
theorem claim_C6_amended (lines : List String) :
    read_input lines = (lines.dropWhile retryLine).head? := by
  induction lines with
  | nil => rfl
  | cons l rest ih =>
    by_cases h : retryLine l = true
    · simp [read_input, List.dropWhile_cons, h, ih]
    · simp [read_input, List.dropWhile_cons, h]

/-- C7: reading generated text is safe for every backend output byte
sequence: (1) the result depends only on the first `MAX_OUTPUT_BUFFER_SIZE`
(24576) bytes — bytes beyond the cap are silently dropped; (2) decoding is
total and every produced code point is a valid Unicode scalar; (3) on a
byte sequence cut mid-character (`[0x41, 0xC3]`, an `'A'` followed by a
dangling two-byte lead) strict decoding fails while the program's lossy
conversion still returns a valid string with a replacement character. -/
theorem claim_C7 :
    (∀ bytes : List Nat,
      get_data_from_context bytes = get_data_from_context (bytes.take MAX_OUTPUT_BUFFER_SIZE)) ∧
    (∀ bytes : List Nat, ∀ cp ∈ utf8LossyCps bytes, isUnicodeScalar cp) ∧
    utf8StrictCps [65, 195] = none ∧
    get_data_from_context [65, 195] = "A�" := by
  refine ⟨?_, ?_, by decide, by decide⟩
  · intro bytes
    simp [get_data_from_context, List.take_take]
  · intro bytes cp hcp
    exact utf8LossyGo_valid bytes.length bytes cp hcp

/-- Witness for C7: the code point decoded from the single byte `0x41` is a
Unicode scalar. -/
theorem claim_C7_witness : isUnicodeScalar 65 :=
  claim_C7.2.1 [65] 65 (by decide)

/-- C8: with a one-shot prompt argument present, the program prints the
prompt banner, performs exactly one backend run, prints the trimmed result
and exits with status 0 (given the submission and the run succeed); and the
whole scripted behaviour is independent of the compute-single flag, which
the branch never consults. -/
theorem claim_C8 (isCS isCS2 : Bool) (prompt : String) (bytes : List Nat)
    (si cr : Except String Unit) :
    scriptedMode isCS prompt (Except.ok ()) (Except.ok ()) bytes =
      ⟨["Prompt:\n" ++ prompt, "Response:", (get_output_from_context bytes).trim],
        1, some 0⟩ ∧
    scriptedMode isCS prompt si cr bytes = scriptedMode isCS2 prompt si cr bytes :=
  ⟨rfl, rfl⟩

/-- C9: the empty-transcript branch of the turn-append (which is the only
place the system prompt is inserted) is taken exactly once per session: the
first append on the empty transcript starts with the system prompt, every
later append on a non-empty transcript only extends it without re-inserting
the system prompt, and after any non-empty sequence of completed turns the
transcript is non-empty and the branch was taken exactly once. -/
theorem claim_C9 :
    (∀ u, append_turn "" system_prompt u =
      "[INST] " ++ system_prompt ++ " " ++ u.trim ++ " [/INST]") ∧
    (∀ t u, t ≠ "" → append_turn t system_prompt u =
      t ++ " [INST] " ++ u.trim ++ " [/INST]") ∧
    (∀ turns : List (String × String), turns ≠ [] →
      (sessionFold turns).1 ≠ "" ∧ (sessionFold turns).2 = 1) := by
  refine ⟨fun u => by simp [append_turn], fun t u ht => by simp [append_turn, ht], ?_⟩
  intro turns hne
  cases turns with
  | nil => exact absurd rfl hne
  | cons t ts =>
    unfold sessionFold
    simp only [List.foldl_cons]
    have h1 : (sessionStateStep ("", 0) t).1 ≠ "" := append_output_ne_empty _ _
    have h2 : (sessionStateStep ("", 0) t).2 = 1 := by simp [sessionStateStep]
    obtain ⟨a, b2⟩ := sessionFold_go ts (sessionStateStep ("", 0) t) h1
    exact ⟨a, by rw [b2, h2]⟩

/-- Witness for C9: a concrete two-turn session takes the empty-transcript
branch exactly once, and a concrete non-empty transcript is extended without
re-inserting the system prompt. -/
theorem claim_C9_witness :
    (append_turn "x" system_prompt "u" = "x" ++ " [INST] " ++ "u".trim ++ " [/INST]") ∧
    (sessionFold [("hi\n", "out"), ("more\n", "text")]).1 ≠ "" ∧
    (sessionFold [("hi\n", "out"), ("more\n", "text")]).2 = 1 :=
  ⟨claim_C9.2.1 "x" "u" (by decide),
   claim_C9.2.2 [("hi\n", "out"), ("more\n", "text")] (by simp)⟩

/-- C10: in interactive batch mode the `stream-stdout` option is effectively
mandatory: when it is absent (or not a boolean) the dispatcher panics at the
end of the turn (`none`) even though generation succeeded, and the whole
turn aborts; when it is explicitly `false` the trimmed output is printed
exactly once, and when `true` nothing is printed by the dispatcher. -/
theorem claim_C10 (bytes : List Nat) :
    batchDispatch none (Except.ok ()) bytes = none ∧
    batchDispatch (some false) (Except.ok ()) bytes =
      some ⟨get_output_from_context bytes, TruncReason.none, [],
            [(get_output_from_context bytes).trim]⟩ ∧
    batchDispatch (some true) (Except.ok ()) bytes =
      some ⟨get_output_from_context bytes, TruncReason.none, [], []⟩ ∧
    interactiveTurn false none "" "q\n"
      ⟨Except.ok (), Except.ok ⟨0, 0⟩, Except.ok (), bytes, [], Except.ok ⟨0, 0⟩,
        Except.ok ()⟩ = none :=
  ⟨rfl, rfl, rfl, rfl⟩
